import Mathlib

/-!
Shallow embedding of the rent-a-ear booking engine (src/app.py together
with the configuration in src/settings.py).

Time is modelled in whole minutes.  Local wall-clock datetimes are `Nat`s
counting minutes from a local epoch whose day 0 is a Monday (matching
Python's `date.weekday()`, where Monday is 0); absolute UTC instants are
`Int`s in minutes.  A fixed zone offset `tzOffset` (minutes east of UTC)
models `astimezone`: utc = local - tzOffset.  Python's `uuid4` fresh-id
generation is modelled by a counter threaded through the state machine.
-/

namespace RentAEar

/-- Rows of the `bookings` table (class `Booking`, app.py lines 44-55). -/
structure Booking where
  id : Nat
  name : String
  email : String
  phone : String
  start_utc : Int
  end_utc : Int
  status : String
  manage_token : Nat
  created_at : Int
deriving Repr, DecidableEq

/-- `overlaps` (app.py lines 85-96).  The Python function first stamps any
naive datetime with UTC; instants here are already absolute, so that
normalisation is the identity and only the final comparison remains. -/
def overlaps (a_start a_end b_start b_end : Int) : Bool :=
  decide (a_start < b_end) && decide (a_end > b_start)

/-- `WEEKDAYS` (app.py line 65). -/
def WEEKDAYS : List String := ["mon", "tue", "wed", "thu", "fri", "sat", "sun"]

/-- The availability-relevant configuration from settings.py.
`BUSINESS_HOURS` maps weekday keys to "HH:MM-HH:MM" range strings;
`BLOCK_DATES` is the blocked-dates set (settings.py line 15), as day
numbers. -/
structure Config where
  SLOT_MINUTES : Nat
  DAYS_AHEAD : Nat
  LEAD_MINUTES : Nat
  BUSINESS_HOURS : List (String × List String)
  BLOCK_DATES : List Nat
deriving Repr, DecidableEq

/-- `settings.BUSINESS_HOURS.get(key, [])` (app.py line 129). -/
def hoursFor (cfg : Config) (k : String) : List String :=
  ((cfg.BUSINESS_HOURS.find? (fun p => p.1 == k)).map Prod.snd).getD []

/-- Python's `str.split(sep)` for a one-character separator, on the
character list of a string (structural, so proofs can evaluate it). -/
def splitOnChar (sep : Char) : List Char → List (List Char)
  | [] => [[]]
  | c :: cs =>
    if c == sep then [] :: splitOnChar sep cs
    else
      match splitOnChar sep cs with
      | [] => [[c]]
      | g :: gs => (c :: g) :: gs

/-- Python's `int(x)` on the digit strings appearing in a time range;
anything `int` would raise on yields `none`. -/
def digitsToNat : List Char → Option Nat
  | [] => none
  | cs => cs.foldl (fun acc c =>
      acc.bind (fun n => if c.isDigit then some (n * 10 + (c.toNat - 48)) else none))
      (some 0)

/-- `parse_range` (app.py lines 106-121): parse "HH:MM-HH:MM" into two
clock times, given as minutes after local midnight.  An end of exactly
`24:00` is substituted by `23:59`.  Input the Python function would raise
on (`split` shape, `int`, or `datetime.time` bounds) yields `none`. -/
def parse_range (r : String) : Option (Nat × Nat) :=
  match splitOnChar '-' r.data with
  | [a, b] =>
    match splitOnChar ':' a, splitOnChar ':' b with
    | [h1s, m1s], [h2s, m2s] => do
      let h1 ← digitsToNat h1s
      let m1 ← digitsToNat m1s
      let h2 ← digitsToNat h2s
      let m2 ← digitsToNat m2s
      if h1 > 23 || m1 > 59 then none
      else if h2 == 24 && m2 == 0 then pure (h1 * 60 + m1, 23 * 60 + 59)
      else if h2 > 23 || m2 > 59 then none
      else pure (h1 * 60 + m1, h2 * 60 + m2)
    | _, _ => none
  | _ => none

/-- The while-loop of `generate_slots_for_date` (app.py lines 139-141):
emit `(cur, cur + step)` while `cur + step ≤ stop`, advancing `cur` by
`step`; `stop` stands for `end + 1 minute`.  The fuel argument only
bounds the recursion: with `step ≥ 1` the loop body runs at most
`stop + 1` times, so the caller's fuel of `stop + 1` is never exhausted
(the Python loop would not terminate at all for `step = 0`). -/
def slotLoop (fuel cur stop step : Nat) : List (Nat × Nat) :=
  match fuel with
  | 0 => []
  | fuel + 1 =>
    if cur + step ≤ stop then (cur, cur + step) :: slotLoop fuel (cur + step) stop step
    else []

/-- `generate_slots_for_date` (app.py lines 124-143).  `d` is a day
number (day 0 a Monday); slot endpoints are local minutes `d * 1440 + t`.
The zone argument of the Python function only stamps `tzinfo` onto the
local datetimes and does not change which slots are produced, so it is
dropped here.  A range string the Python code would raise on contributes
nothing (configuration is static and well formed per the spec's
load-time contract). -/
def generate_slots_for_date (cfg : Config) (d : Nat) (slot_minutes : Nat) :
    List (Nat × Nat) :=
  let ranges := hoursFor cfg (WEEKDAYS.getD (d % 7) "mon")
  ranges.flatMap (fun r =>
    match parse_range r with
    | none => []
    | some (t1, t2) =>
      slotLoop (d * 1440 + t2 + 2) (d * 1440 + t1) (d * 1440 + t2 + 1) slot_minutes)

/-- `daterange` (app.py lines 99-103): day numbers from `startDay`
(inclusive), `days` of them. -/
def daterange (startDay days : Nat) : List Nat :=
  (List.range days).map (fun i => startDay + i)

/-- A local wall-clock minute as an absolute UTC instant for a zone
`tzOffset` minutes east of UTC (`astimezone(timezone.utc)`). -/
def localToUtc (t : Nat) (tzOffset : Int) : Int := (t : Int) - tzOffset

/-- `available_slots` (app.py lines 146-184).  `nowLocal` stands for
`datetime.now(tz)` at the moment of the query and `store` for the
bookings table.  Note that the function never consults
`cfg.BLOCK_DATES`: the Python code reads `settings.BLOCK_DATES` nowhere. -/
def available_slots (cfg : Config) (store : List Booking) (nowLocal : Nat)
    (startDay days_ahead slot_minutes lead_minutes : Nat) (tzOffset : Int)
    (exclude_booking_id : Option Nat) : List (Nat × Nat) :=
  let cutoff := nowLocal + lead_minutes
  let candidates := (daterange startDay days_ahead).flatMap
    (fun d => generate_slots_for_date cfg d slot_minutes)
  let candidates := candidates.filter (fun se => decide (cutoff ≤ se.1))
  let existing := store.filter (fun b =>
    b.status == "confirmed" &&
      (match exclude_booking_id with
       | some i => b.id != i
       | none => true))
  candidates.filter (fun se =>
    !(existing.any (fun b =>
      overlaps (localToUtc se.1 tzOffset) (localToUtc se.2 tzOffset)
        b.start_utc b.end_utc)))

/-- Outcome of a booking route: the store after the request, tagged with
the user-visible result (`ok` for a success redirect, `conflict` for the
overlap flash message, `notFound` for the missing-manage-link flash).
The routes surface no other outcome for these paths. -/
inductive OpResult where
  | ok (store : List Booking)
  | conflict (store : List Booking)
  | notFound (store : List Booking)
deriving Repr, DecidableEq

/-- The store carried by any outcome. -/
def OpResult.store : OpResult → List Booking
  | .ok s => s
  | .conflict s => s
  | .notFound s => s

/-- The conflict check of `book_post` (app.py lines 320-321): read all
confirmed bookings and test overlap in application code. -/
def book_check (store : List Booking) (start_utc end_utc : Int) : Bool :=
  (store.filter (fun b => b.status == "confirmed")).any
    (fun b => overlaps start_utc end_utc b.start_utc b.end_utc)

/-- The insert of `book_post` (app.py lines 325-335): append a fresh
confirmed booking row and commit. -/
def book_insert (store : List Booking) (nid : Nat) (nm em ph : String)
    (start_utc end_utc : Int) (ntok : Nat) (cAt : Int) : List Booking :=
  store ++ [{ id := nid, name := nm, email := em, phone := ph,
              start_utc := start_utc, end_utc := end_utc,
              status := "confirmed", manage_token := ntok, created_at := cAt }]

/-- `book_post` (app.py lines 278-349), from the point where the chosen
interval has been converted to UTC (lines 315-316).  The upstream
presence/email/phone validation only gates the contact fields; note the
route has no `start < end` check anywhere.  `nid` and `ntok` model the
`uuid4()` calls and `cAt` the `created_at` column default. -/
def book_post (store : List Booking) (nid ntok : Nat) (nm em ph : String)
    (cAt : Int) (start_utc end_utc : Int) : OpResult :=
  if book_check store start_utc end_utc then
    .conflict store
  else
    .ok (book_insert store nid nm em ph start_utc end_utc ntok cAt)

/-- `query.filter_by(manage_token=token).first()` (app.py line 413). -/
def findToken (store : List Booking) (tok : Nat) : Option Booking :=
  store.find? (fun b => b.manage_token == tok)

/-- Mutating the ORM row resolved by its manage token and committing:
replace the first booking bearing the token. -/
def updateFirst (store : List Booking) (tok : Nat) (f : Booking → Booking) :
    List Booking :=
  match store with
  | [] => []
  | b :: rest =>
    if b.manage_token == tok then f b :: rest
    else b :: updateFirst rest tok f

/-- `reschedule_post` (app.py lines 394-438), from line 409 where the new
interval is already in UTC.  The route resolves the booking by token,
checks overlap against the other confirmed bookings only, and updates the
interval in place; it performs no status check on the resolved booking. -/
def reschedule_post (store : List Booking) (tok : Nat)
    (start_utc end_utc : Int) : OpResult :=
  match findToken store tok with
  | none => .notFound store
  | some b =>
    let others := store.filter (fun x => x.id != b.id && x.status == "confirmed")
    if others.any (fun x => overlaps start_utc end_utc x.start_utc x.end_utc) then
      .conflict store
    else
      .ok (updateFirst store tok
        (fun x => { x with start_utc := start_utc, end_utc := end_utc }))

/-- `cancel` (app.py lines 441-451): resolve by token, set the status to
"canceled" unconditionally, commit; nothing else is touched. -/
def cancel (store : List Booking) (tok : Nat) : OpResult :=
  match findToken store tok with
  | none => .notFound store
  | some _ => .ok (updateFirst store tok (fun b => { b with status := "canceled" }))

/-- A client request against the booking routes. -/
inductive Op where
  | book (name email phone : String) (created_at start_utc end_utc : Int)
  | resched (token : Nat) (start_utc end_utc : Int)
  | cancelTok (token : Nat)

/-- The bookings table plus the fresh-identifier supply standing for
`uuid4` (which never repeats an id or a manage token). -/
structure Sys where
  store : List Booking
  nextId : Nat

/-- One sequential request: `book_post` draws a fresh id and token from
the supply on success; the other routes leave the supply alone. -/
def stepOp (st : Sys) (op : Op) : Sys :=
  match op with
  | .book nm em ph cAt s e =>
    match book_post st.store st.nextId st.nextId nm em ph cAt s e with
    | .ok store => ⟨store, st.nextId + 1⟩
    | r => ⟨r.store, st.nextId⟩
  | .resched tok s e => ⟨(reschedule_post st.store tok s e).store, st.nextId⟩
  | .cancelTok tok => ⟨(cancel st.store tok).store, st.nextId⟩

/-- Run a sequential interleaving of requests from the empty store. -/
def runOps (ops : List Op) : Sys := ops.foldl stepOp ⟨[], 0⟩

/-- Two bookings are both confirmed and their UTC intervals intersect
per the `overlaps` predicate. -/
def confOverlap (b1 b2 : Booking) : Prop :=
  b1.status = "confirmed" ∧ b2.status = "confirmed" ∧
    overlaps b1.start_utc b1.end_utc b2.start_utc b2.end_utc = true

instance (b1 b2 : Booking) : Decidable (confOverlap b1 b2) := by
  unfold confOverlap; infer_instance

/-- The global invariant: no two distinct bookings of the table are both
confirmed with intersecting intervals. -/
def noConfirmedOverlap (store : List Booking) : Prop :=
  store.Pairwise (fun b1 b2 => ¬ confOverlap b1 b2)

instance (store : List Booking) : Decidable (noConfirmedOverlap store) := by
  unfold noConfirmedOverlap; infer_instance

/-- Identifier health of a system state: every stored id is below the
supply and ids are pairwise distinct (as the database primary key and
`uuid4` guarantee in the source). -/
def goodIds (st : Sys) : Prop :=
  (∀ b ∈ st.store, b.id < st.nextId) ∧ (st.store.map Booking.id).Nodup

/-- Full induction invariant for the sequential state machine. -/
def SysInv (st : Sys) : Prop := goodIds st ∧ noConfirmedOverlap st.store

/-! ## Helper lemmas -/

theorem overlaps_symm (a b c d : Int) : overlaps a b c d = overlaps c d a b :=
  Bool.and_comm _ _

theorem confOverlap_symm {b1 b2 : Booking} (h : confOverlap b1 b2) :
    confOverlap b2 b1 :=
  ⟨h.2.1, h.1, (overlaps_symm ..).symm.trans h.2.2⟩

theorem mem_of_findToken {store : List Booking} {tok : Nat} {b : Booking}
    (h : findToken store tok = some b) : b ∈ store :=
  List.mem_of_find?_eq_some h

/-- Decompose a store around the booking its manage token resolves to,
and describe `updateFirst` on that decomposition. -/
theorem findToken_shape {store : List Booking} {tok : Nat} {b : Booking}
    (hfind : findToken store tok = some b) (f : Booking → Booking) :
    ∃ l1 l2, store = l1 ++ b :: l2
      ∧ updateFirst store tok f = l1 ++ f b :: l2 := by
  induction store with
  | nil => simp [findToken, List.find?] at hfind
  | cons hd tl ih =>
    by_cases h : (hd.manage_token == tok) = true
    · have hb : b = hd := by
        simp [findToken, List.find?_cons, h] at hfind
        exact hfind.symm
      subst hb
      exact ⟨[], tl, rfl, by simp [updateFirst, h]⟩
    · have hfind2 : findToken tl tok = some b := by
        simpa [findToken, List.find?_cons, h] using hfind
      obtain ⟨l1, l2, hsp, hup⟩ := ih hfind2
      refine ⟨hd :: l1, l2, by simp [hsp], ?_⟩
      simp [updateFirst, h, hup]

theorem updateFirst_map_id (store : List Booking) (tok : Nat)
    (f : Booking → Booking) (hf : ∀ x, (f x).id = x.id) :
    (updateFirst store tok f).map Booking.id = store.map Booking.id := by
  induction store with
  | nil => rfl
  | cons hd tl ih =>
    by_cases h : (hd.manage_token == tok) = true
    · simp [updateFirst, h, hf]
    · simp [updateFirst, h, ih]

/-- Replacing the middle booking by one that is not confirmed preserves
the invariant (all pairs through it become vacuous). -/
theorem pairwise_update_not_confirmed {l1 l2 : List Booking} {b b2 : Booking}
    (hb2 : ¬ b2.status = "confirmed")
    (hno : noConfirmedOverlap (l1 ++ b :: l2)) :
    noConfirmedOverlap (l1 ++ b2 :: l2) := by
  unfold noConfirmedOverlap at hno ⊢
  rw [List.pairwise_append] at hno ⊢
  obtain ⟨h1, h2, h12⟩ := hno
  rw [List.pairwise_cons] at h2 ⊢
  refine ⟨h1, ⟨fun x _ hco => hb2 hco.1, h2.2⟩, ?_⟩
  intro a ha y hy
  rcases List.mem_cons.mp hy with rfl | hy2
  · exact fun hco => hb2 hco.2.1
  · exact h12 a ha y (List.mem_cons_of_mem _ hy2)

/-- Replacing the middle booking by one already checked against every
other confirmed booking preserves the invariant. -/
theorem pairwise_update_checked {l1 l2 : List Booking} {b b2 : Booking}
    (hsafe : ∀ x, (x ∈ l1 ∨ x ∈ l2) → x.status = "confirmed" →
        overlaps b2.start_utc b2.end_utc x.start_utc x.end_utc = false)
    (hno : noConfirmedOverlap (l1 ++ b :: l2)) :
    noConfirmedOverlap (l1 ++ b2 :: l2) := by
  unfold noConfirmedOverlap at hno ⊢
  rw [List.pairwise_append] at hno ⊢
  obtain ⟨h1, h2, h12⟩ := hno
  rw [List.pairwise_cons] at h2 ⊢
  refine ⟨h1, ⟨?_, h2.2⟩, ?_⟩
  · intro x hx hco
    have := hsafe x (Or.inr hx) hco.2.1
    rw [hco.2.2] at this
    exact Bool.noConfusion this
  · intro a ha y hy
    rcases List.mem_cons.mp hy with rfl | hy2
    · intro hco
      have := hsafe a (Or.inl ha) hco.1
      rw [overlaps_symm, hco.2.2] at this
      exact Bool.noConfusion this
    · exact h12 a ha y (List.mem_cons_of_mem _ hy2)

/-! ## Claims -/

/-- C6: the overlap predicate returns exactly
`aStart < bEnd AND aEnd > bStart`; every nonzero interval overlaps
itself; back-to-back intervals (one's end equal to the other's start)
never count as overlapping. -/
theorem C6_overlaps_spec :
    (∀ aS aE bS bE : Int, overlaps aS aE bS bE =
      (decide (aS < bE) && decide (aE > bS)))
    ∧ (∀ a b : Int, a < b → overlaps a b a b = true)
    ∧ (∀ aS aE bS bE : Int, aE = bS ∨ bE = aS →
        overlaps aS aE bS bE = false) := by
  refine ⟨fun _ _ _ _ => rfl, fun a b h => ?_, fun aS aE bS bE h => ?_⟩
  · simp [overlaps, h]
  · rcases h with h | h <;> subst h <;> simp [overlaps]

/-- C6 witness: a concrete nonzero interval overlaps itself, and two
concrete back-to-back intervals do not overlap. -/
theorem C6_overlaps_spec_witness :
    overlaps 540 600 540 600 = true ∧ overlaps 540 600 600 660 = false :=
  ⟨C6_overlaps_spec.2.1 540 600 (by decide),
   C6_overlaps_spec.2.2 540 600 600 660 (Or.inl rfl)⟩

/-- C7: "21:00-24:00" parses to the same clock times as "21:00-23:59"
(the 24:00→23:59 substitution), and with 60-minute slots a Monday whose
template is mon ↦ ["21:00-23:59"] yields 21:00-22:00, 22:00-23:00 and,
thanks to the one-minute tolerance of the generation loop, the final
slot 23:00-00:00 (minute 1440 = midnight of the next day). -/
theorem C7_end_of_day_slots :
    parse_range "21:00-24:00" = some (21 * 60, 23 * 60 + 59)
    ∧ parse_range "21:00-23:59" = some (21 * 60, 23 * 60 + 59)
    ∧ generate_slots_for_date
        ⟨60, 21, 120, [("mon", ["21:00-23:59"])], []⟩ 0 60 =
        [(21 * 60, 22 * 60), (22 * 60, 23 * 60), (23 * 60, 24 * 60)]
    ∧ generate_slots_for_date
        ⟨60, 21, 120, [("mon", ["21:00-24:00"])], []⟩ 0 60 =
        [(21 * 60, 22 * 60), (22 * 60, 23 * 60), (23 * 60, 24 * 60)] := by
  refine ⟨by decide, by decide, by decide, by decide⟩

/-- C3 at the failing input: day 0 is in `BLOCK_DATES`, Monday business
hours are 09:00-10:00, the store is empty, yet `available_slots` for the
one-day window over day 0 returns the 09:00-10:00 slot of the blocked
day — the code never reads `settings.BLOCK_DATES`. -/
theorem C3_blocked_date_still_contributes :
    (0 ∈ (⟨60, 21, 120, [("mon", ["09:00-10:00"])], [0]⟩ : Config).BLOCK_DATES)
    ∧ available_slots ⟨60, 21, 120, [("mon", ["09:00-10:00"])], [0]⟩
        [] 0 0 1 60 0 0 none = [(540, 600)] := by
  refine ⟨by decide, by decide⟩

/-- C4 at the failing input: a create request whose chosen interval runs
from minute 660 down to minute 600 (start after end) is accepted against
an empty store and the inverted row is stored confirmed — the route has
no `start < end` validation. -/
theorem C4_inverted_interval_accepted :
    book_post [] 1 11 "Ann" "a@example.test" "+13125550123" 0 660 600 =
      .ok [{ id := 1, name := "Ann", email := "a@example.test",
             phone := "+13125550123", start_utc := 660, end_utc := 600,
             status := "confirmed", manage_token := 11, created_at := 0 }]
    ∧ ¬ ((660 : Int) < 600) := by
  refine ⟨by decide, by decide⟩

/-- C5 at the failing input: the store holds one canceled booking
(manage token 7); rescheduling it to a free interval succeeds and moves
its interval while it stays canceled — the route checks no status, and
no InvalidState outcome exists in the code. -/
theorem C5_reschedule_canceled_succeeds :
    reschedule_post
      [{ id := 1, name := "Ann", email := "a@example.test",
         phone := "+13125550123", start_utc := 600, end_utc := 660,
         status := "canceled", manage_token := 7, created_at := 0 }]
      7 720 780 =
      .ok [{ id := 1, name := "Ann", email := "a@example.test",
             phone := "+13125550123", start_utc := 720, end_utc := 780,
             status := "canceled", manage_token := 7, created_at := 0 }] := by
  decide

/-- C2 at the failing schedule: two create requests for the identical
interval 10:00-11:00 UTC both run the conflict check of app.py lines
320-321 against the store before either insert of lines 325-335 commits
(nothing in the code serializes check against insert); both checks pass,
both rows commit, and the final store holds two overlapping confirmed
bookings — not "exactly one succeeds". -/
theorem C2_toctou_both_commit :
    book_check [] 600 660 = false
    ∧ book_check [] 600 660 = false
    ∧ ¬ noConfirmedOverlap
        (book_insert
          (book_insert [] 1 "Ann" "a@example.test" "+13125550123" 600 660 11 0)
          2 "Bob" "b@example.test" "+13125550124" 600 660 12 0) := by
  refine ⟨by decide, by decide, by decide⟩

/-- C8: every slot returned by `available_slots` starts at or after the
query-time instant plus the configured lead minutes: the cutoff is
compared against slot start and earlier candidates are discarded. -/
theorem C8_lead_time_cutoff (cfg : Config) (store : List Booking)
    (nowLocal startDay days_ahead slot_minutes lead_minutes : Nat)
    (tzOffset : Int) (excl : Option Nat) (se : Nat × Nat)
    (hmem : se ∈ available_slots cfg store nowLocal startDay days_ahead
      slot_minutes lead_minutes tzOffset excl) :
    nowLocal + lead_minutes ≤ se.1 := by
  unfold available_slots at hmem
  simp only [List.mem_filter, decide_eq_true_eq] at hmem
  exact hmem.1.2

/-- C8 witness: with lead 60 from query time 0, the returned slot
09:00-10:00 indeed starts at or after minute 60. -/
theorem C8_lead_time_cutoff_witness :
    (0 : Nat) + 60 ≤ ((540, 600) : Nat × Nat).1 :=
  C8_lead_time_cutoff ⟨60, 21, 120, [("mon", ["09:00-10:00"])], []⟩ []
    0 0 1 60 60 0 none (540, 600) (by decide)

/-- C9: the reschedule conflict check excludes the booking being
rescheduled.  When the non-overlap invariant holds, rescheduling a
confirmed booking to the very interval it already occupies succeeds
(no self-conflict), while a new interval overlapping any *other*
confirmed booking is still rejected with a conflict. -/
theorem C9_reschedule_excludes_self (store : List Booking) (tok : Nat)
    (b : Booking) (hfind : findToken store tok = some b)
    (hconf : b.status = "confirmed") :
    (noConfirmedOverlap store →
      ∃ store2, reschedule_post store tok b.start_utc b.end_utc = .ok store2)
    ∧ (∀ s e : Int, ∀ x ∈ store, x.id ≠ b.id → x.status = "confirmed" →
        overlaps s e x.start_utc x.end_utc = true →
        reschedule_post store tok s e = .conflict store) := by
  constructor
  · intro hno
    have hcond : (store.filter
          (fun x => x.id != b.id && x.status == "confirmed")).any
        (fun x => overlaps b.start_utc b.end_utc x.start_utc x.end_utc)
        = false := by
      rw [List.any_eq_false]
      intro x hx
      rw [List.mem_filter] at hx
      obtain ⟨hxs, hxp⟩ := hx
      simp only [Bool.and_eq_true, bne_iff_ne, beq_iff_eq] at hxp
      intro hov
      have hxb : b ≠ x := fun heq => hxp.1 (by rw [heq])
      have hb : b ∈ store := mem_of_findToken hfind
      have hsym : Symmetric (fun b1 b2 : Booking => ¬ confOverlap b1 b2) :=
        fun b1 b2 h hco => h (confOverlap_symm hco)
      exact (List.Pairwise.forall hsym hno) hb hxs hxb ⟨hconf, hxp.2, hov⟩
    exact ⟨updateFirst store tok
        (fun x => { x with start_utc := b.start_utc, end_utc := b.end_utc }),
      by simp [reschedule_post, hfind, hcond]⟩
  · intro s e x hx hxid hxconf hov
    have hcond : (store.filter
          (fun y => y.id != b.id && y.status == "confirmed")).any
        (fun y => overlaps s e y.start_utc y.end_utc) = true := by
      rw [List.any_eq_true]
      exact ⟨x, List.mem_filter.mpr ⟨hx, by simp [hxid, hxconf]⟩, hov⟩
    simp [reschedule_post, hfind, hcond]

/-- C9 witness: in a two-booking store, rescheduling booking 1 (token 7)
to its own interval 10:00-11:00 succeeds, while rescheduling it onto an
interval overlapping booking 2 is rejected with a conflict. -/
theorem C9_reschedule_excludes_self_witness :
    (∃ store2, reschedule_post
      [⟨1, "A", "a@example.test", "+13125550123", 600, 660, "confirmed", 7, 0⟩,
       ⟨2, "B", "b@example.test", "+13125550124", 720, 780, "confirmed", 8, 0⟩]
      7 600 660 = .ok store2)
    ∧ reschedule_post
      [⟨1, "A", "a@example.test", "+13125550123", 600, 660, "confirmed", 7, 0⟩,
       ⟨2, "B", "b@example.test", "+13125550124", 720, 780, "confirmed", 8, 0⟩]
      7 730 790 = .conflict
      [⟨1, "A", "a@example.test", "+13125550123", 600, 660, "confirmed", 7, 0⟩,
       ⟨2, "B", "b@example.test", "+13125550124", 720, 780, "confirmed", 8, 0⟩] := by
  have h := C9_reschedule_excludes_self
    [⟨1, "A", "a@example.test", "+13125550123", 600, 660, "confirmed", 7, 0⟩,
     ⟨2, "B", "b@example.test", "+13125550124", 720, 780, "confirmed", 8, 0⟩]
    7 ⟨1, "A", "a@example.test", "+13125550123", 600, 660, "confirmed", 7, 0⟩
    (by decide) rfl
  exact ⟨h.1 (by decide),
    h.2 730 790
      ⟨2, "B", "b@example.test", "+13125550124", 720, 780, "confirmed", 8, 0⟩
      (by decide) (by decide) rfl (by decide)⟩

/-- C10: cancel resolves the booking by manage token and rewrites only
its status to "canceled"; id, manage_token, start_utc, end_utc, name,
email, phone and created_at are untouched, and cancelling an
already-canceled booking leaves the store identical. -/
theorem C10_cancel_frame (store : List Booking) (tok : Nat) (b : Booking)
    (hfind : findToken store tok = some b) :
    (∃ l1 l2, store = l1 ++ b :: l2
      ∧ cancel store tok =
          .ok (l1 ++ ({ b with status := "canceled" } : Booking) :: l2))
    ∧ ({ b with status := "canceled" } : Booking).status = "canceled"
    ∧ ({ b with status := "canceled" } : Booking).id = b.id
    ∧ ({ b with status := "canceled" } : Booking).manage_token = b.manage_token
    ∧ ({ b with status := "canceled" } : Booking).start_utc = b.start_utc
    ∧ ({ b with status := "canceled" } : Booking).end_utc = b.end_utc
    ∧ ({ b with status := "canceled" } : Booking).name = b.name
    ∧ ({ b with status := "canceled" } : Booking).email = b.email
    ∧ ({ b with status := "canceled" } : Booking).phone = b.phone
    ∧ ({ b with status := "canceled" } : Booking).created_at = b.created_at
    ∧ (b.status = "canceled" → cancel store tok = .ok store) := by
  obtain ⟨l1, l2, hsp, hup⟩ :=
    findToken_shape hfind (fun x => { x with status := "canceled" })
  refine ⟨⟨l1, l2, hsp, by simp [cancel, hfind, hup]⟩,
    rfl, rfl, rfl, rfl, rfl, rfl, rfl, rfl, rfl, ?_⟩
  intro hcanc
  have hb : ({ b with status := "canceled" } : Booking) = b := by
    cases b
    simp only at hcanc
    simp [hcanc]
  simp [cancel, hfind, hup, hb, ← hsp]

/-- C10 witness: cancelling a store's only booking (already canceled,
token 7) returns the store unchanged. -/
theorem C10_cancel_frame_witness :
    cancel [⟨1, "A", "a@example.test", "+13125550123", 600, 660,
             "canceled", 7, 0⟩] 7 =
      .ok [⟨1, "A", "a@example.test", "+13125550123", 600, 660,
            "canceled", 7, 0⟩] :=
  (C10_cancel_frame
    [⟨1, "A", "a@example.test", "+13125550123", 600, 660, "canceled", 7, 0⟩]
    7 ⟨1, "A", "a@example.test", "+13125550123", 600, 660, "canceled", 7, 0⟩
    (by decide)).2.2.2.2.2.2.2.2.2.2 rfl

/-! ## The sequential non-overlap invariant (C1) -/

theorem book_insert_preserves (store : List Booking) (nid : Nat)
    (nm em ph : String) (s e : Int) (ntok : Nat) (cAt : Int)
    (hc : book_check store s e = false) (hno : noConfirmedOverlap store) :
    noConfirmedOverlap (book_insert store nid nm em ph s e ntok cAt) := by
  unfold noConfirmedOverlap book_insert
  rw [List.pairwise_append]
  refine ⟨hno, List.pairwise_singleton _ _, ?_⟩
  intro a ha y hy
  rw [List.mem_singleton] at hy
  subst hy
  intro hco
  obtain ⟨hca, _, hov⟩ := hco
  unfold book_check at hc
  rw [List.any_eq_false] at hc
  have hmem : a ∈ store.filter (fun x => x.status == "confirmed") :=
    List.mem_filter.mpr ⟨ha, by simp [hca]⟩
  have hfalse := hc a hmem
  rw [overlaps_symm] at hov
  exact hfalse hov

theorem id_ne_of_nodup_middle {l1 l2 : List Booking} {b : Booking}
    (hnd : ((l1 ++ b :: l2).map Booking.id).Nodup) :
    ∀ x, (x ∈ l1 ∨ x ∈ l2) → x.id ≠ b.id := by
  rw [List.map_append, List.map_cons, List.nodup_append] at hnd
  obtain ⟨h1, h2, hdisj⟩ := hnd
  rw [List.nodup_cons] at h2
  intro x hx heq
  rcases hx with hx | hx
  · refine (List.disjoint_left.mp hdisj ?_) (List.mem_cons_self _ _)
    rw [← heq]
    exact List.mem_map_of_mem Booking.id hx
  · refine h2.1 ?_
    rw [← heq]
    exact List.mem_map_of_mem Booking.id hx

theorem reschedule_preserves (store : List Booking) (tok : Nat) (s e : Int)
    (hnd : (store.map Booking.id).Nodup) (hno : noConfirmedOverlap store) :
    noConfirmedOverlap ((reschedule_post store tok s e).store)
    ∧ ((reschedule_post store tok s e).store).map Booking.id
        = store.map Booking.id := by
  unfold reschedule_post
  cases hfind : findToken store tok with
  | none => exact ⟨hno, rfl⟩
  | some b =>
    by_cases hc : (store.filter (fun x => x.id != b.id && x.status == "confirmed")).any
        (fun x => overlaps s e x.start_utc x.end_utc) = true
    · simp only [hc, if_true, OpResult.store]
      exact ⟨hno, trivial⟩
    · rw [Bool.not_eq_true] at hc
      simp only [hc, Bool.false_eq_true, if_false, OpResult.store]
      have hfmap := updateFirst_map_id store tok
        (fun x => { x with start_utc := s, end_utc := e }) (fun x => rfl)
      refine ⟨?_, hfmap⟩
      obtain ⟨l1, l2, hsp, hup⟩ := findToken_shape hfind
        (fun x => { x with start_utc := s, end_utc := e })
      rw [hup]
      rw [hsp] at hno hnd hc
      by_cases hbs : b.status = "confirmed"
      · apply pairwise_update_checked ?_ hno
        intro x hx hxconf
        rw [List.any_eq_false] at hc
        have hxmem : x ∈ l1 ++ b :: l2 := by
          rcases hx with hx | hx
          · exact List.mem_append_left _ hx
          · exact List.mem_append_right _ (List.mem_cons_of_mem _ hx)
        have hxid := id_ne_of_nodup_middle hnd x hx
        have hxfil : x ∈ (l1 ++ b :: l2).filter
            (fun y => y.id != b.id && y.status == "confirmed") :=
          List.mem_filter.mpr ⟨hxmem, by simp [hxid, hxconf]⟩
        have := hc x hxfil
        rw [Bool.not_eq_true] at this
        exact this
      · exact pairwise_update_not_confirmed
          (by simpa using hbs) hno

theorem cancel_preserves (store : List Booking) (tok : Nat)
    (hno : noConfirmedOverlap store) :
    noConfirmedOverlap ((cancel store tok).store)
    ∧ ((cancel store tok).store).map Booking.id = store.map Booking.id := by
  unfold cancel
  cases hfind : findToken store tok with
  | none => exact ⟨hno, rfl⟩
  | some b =>
    simp only [OpResult.store]
    obtain ⟨l1, l2, hsp, hup⟩ := findToken_shape hfind
      (fun x => { x with status := "canceled" })
    refine ⟨?_, updateFirst_map_id store tok _ (fun x => rfl)⟩
    rw [hup]
    rw [hsp] at hno
    exact pairwise_update_not_confirmed (by simp) hno

theorem forall_id_lt_of_map_eq {s1 s2 : List Booking} {n : Nat}
    (hmap : s2.map Booking.id = s1.map Booking.id)
    (h : ∀ b ∈ s1, b.id < n) : ∀ b ∈ s2, b.id < n := by
  intro b hb
  have hmem : b.id ∈ s1.map Booking.id := by
    rw [← hmap]
    exact List.mem_map_of_mem Booking.id hb
  obtain ⟨c, hc, hceq⟩ := List.mem_map.mp hmem
  rw [← hceq]
  exact h c hc

theorem stepOp_preserves (st : Sys) (op : Op) (h : SysInv st) :
    SysInv (stepOp st op) := by
  obtain ⟨⟨hlt, hnd⟩, hno⟩ := h
  cases op with
  | book nm em ph cAt s e =>
    by_cases hc : book_check st.store s e = true
    · simp only [stepOp, book_post, hc, if_true]
      exact ⟨⟨hlt, hnd⟩, hno⟩
    · rw [Bool.not_eq_true] at hc
      simp only [stepOp, book_post, hc, Bool.false_eq_true, if_false]
      refine ⟨⟨?_, ?_⟩, book_insert_preserves _ _ _ _ _ _ _ _ _ hc hno⟩
      · intro b hb
        unfold book_insert at hb
        rw [List.mem_append] at hb
        rcases hb with hb | hb
        · exact Nat.lt_succ_of_lt (hlt b hb)
        · rw [List.mem_singleton] at hb
          subst hb
          exact Nat.lt_succ_self _
      · unfold book_insert
        rw [List.map_append, List.nodup_append]
        refine ⟨hnd, List.nodup_singleton _, ?_⟩
        rw [List.disjoint_left]
        intro a ha
        obtain ⟨c, hc2, hceq⟩ := List.mem_map.mp ha
        simp only [List.map_cons, List.map_nil, List.mem_singleton]
        intro heq
        have hlt2 := hlt c hc2
        rw [hceq, heq] at hlt2
        exact Nat.lt_irrefl _ hlt2
  | resched tok s e =>
    obtain ⟨hno2, hmap⟩ := reschedule_preserves st.store tok s e hnd hno
    exact ⟨⟨forall_id_lt_of_map_eq hmap hlt, hmap ▸ hnd⟩, hno2⟩
  | cancelTok tok =>
    obtain ⟨hno2, hmap⟩ := cancel_preserves st.store tok hno
    exact ⟨⟨forall_id_lt_of_map_eq hmap hlt, hmap ▸ hnd⟩, hno2⟩

theorem foldl_stepOp_inv (ops : List Op) (st : Sys) (h : SysInv st) :
    SysInv (ops.foldl stepOp st) := by
  induction ops generalizing st with
  | nil => exact h
  | cons op rest ih => exact ih _ (stepOp_preserves st op h)

/-- C1: starting from the empty store, every sequential interleaving of
the create, reschedule and cancel routes preserves the global invariant:
no two distinct confirmed bookings hold overlapping
`[start_utc, end_utc)` intervals (overlap per the §4.5 predicate). -/
theorem C1_sequential_no_overlap (ops : List Op) :
    noConfirmedOverlap (runOps ops).store :=
  (foldl_stepOp_inv ops ⟨[], 0⟩
    ⟨⟨fun b hb => absurd hb (List.not_mem_nil b), List.nodup_nil⟩,
      List.Pairwise.nil⟩).2

/-- C1 witness: a concrete four-request interleaving (create, an
identical conflicting create, a reschedule, a cancel) ends in a store
whose confirmed bookings are pairwise non-overlapping. -/
theorem C1_sequential_no_overlap_witness :
    noConfirmedOverlap (runOps
      [.book "A" "a@example.test" "+13125550123" 0 600 660,
       .book "B" "b@example.test" "+13125550124" 0 600 660,
       .resched 0 720 780,
       .cancelTok 0]).store :=
  C1_sequential_no_overlap
    [.book "A" "a@example.test" "+13125550123" 0 600 660,
     .book "B" "b@example.test" "+13125550124" 0 600 660,
     .resched 0 720 780,
     .cancelTok 0]

end RentAEar
